import Mathlib

/-!
# Verification of the lettuce native code generator and its companions

Shallow embedding, in Lean 4, of the parts of the `PINN-LBM2` (lettuce)
repository that the specification talks about:

* the standard-streaming write-back emitted by
  `src/lettuce/native_generator/_streaming.py` (periodic wraparound,
  no-stream mask, `f_next` double buffering) — embedded both semantically
  (what the emitted per-cell code computes) and textually (which lines and
  hooks the generator methods append to the shared buffers);
* the moment transforms of `src/lettuce/moments.py`;
* the boundaries of `src/lettuce/boundary.py`;
* the initialization collision of
  `src/lettuce/ext/_collision/bgk_initialization.py`.

Parts of the repository that are referenced but not present in the source
tree (the `Generator` orchestrator internals, the stencil module, the
reference array-based operators, primitive generators) are modelled from
the specification; their doc comments start with `Modelled from the spec:`.
All arithmetic is carried out over `ℚ`, so floating-point tolerances in the
specification become exact equalities here.
-/

/-! ## Periodic wraparound and the emitted write-back (semantics)

`NativeStandardStreaming.generate_read_write` emits, for every spatial
axis, the three lines

```
index_t x_ = index[0] + e[i][0];
      if (x_ <  0)            x_ += dimension[0];
 else if (x_ >= dimension[0]) x_ -= dimension[0];
```

`wrapCoord` is the semantics of the two conditional lines, `streamTarget`
of the whole per-axis block. -/

/-- Periodic wraparound of one integer coordinate on one axis, exactly as
emitted by the standard-streaming write-back: if the coordinate is negative
the axis extent is added, otherwise if it is at least the extent the extent
is subtracted. -/
def wrapCoord (x n : ℤ) : ℤ :=
  if x < 0 then x + n else if x ≥ n then x - n else x

/-- The neighbour coordinate computed by the standard-streaming write-back
for one direction vector `e`: the direction vector is added componentwise to
the cell coordinate `idx` and `wrapCoord` is applied per spatial axis with
that axis's extent. -/
def streamTarget {d : ℕ} (dims idx e : Fin d → ℤ) : Fin d → ℤ :=
  fun a => wrapCoord (idx a + e a) (dims a)

/-! ## The masked per-cell write-back (C3) -/

/-- The write-back loop emitted by
`NativeStandardStreaming.generate_read_write` with
`support_no_streaming_mask` enabled, executed for one cell `index` on an
`f_next` buffer: for each direction `i` (in emission order) the register
value `f_reg[i]` — which the emitted read loop loaded from `f` at the
cell's own coordinate — is stored to the cell's own coordinate when
`no_stream_mask` is set at the cell, and to the wrapped neighbour
coordinate `streamTarget` otherwise.  Buffers are indexed by
(coordinate vector, direction) pairs, mirroring `f[q, x, y(, z)]`. -/
def cellWriteBack {d Q : ℕ} {α : Type} (dims : Fin d → ℤ) (e : Fin Q → Fin d → ℤ)
    (noStreamMask : (Fin d → ℤ) → Bool) (f : (Fin d → ℤ) × Fin Q → α)
    (index : Fin d → ℤ) (fnext : (Fin d → ℤ) × Fin Q → α) :
    (Fin d → ℤ) × Fin Q → α :=
  (List.finRange Q).foldl
    (fun buf i =>
      Function.update buf
        (if noStreamMask index then index else streamTarget dims index (e i), i)
        (f (index, i)))
    fnext

/-! ## The generated streaming pass over the whole grid (C1)

For the equivalence claim the stencil is fixed to D2Q9 (the configuration
of `src/tests/native/test_native_bgk_collision.py`), so cells are pairs
`Fin Nx × Fin Ny` and the per-axis wraparound block is instantiated on the
two axes. -/

/-- The neighbour coordinate computed by the emitted write-back on a
two-dimensional grid: `wrapCoord` applied on each axis with that axis's
extent (the `d = 2` instantiation of `streamTarget`). -/
def streamTarget2 (Nx Ny : ℕ) (idx e : ℤ × ℤ) : ℤ × ℤ :=
  (wrapCoord (idx.1 + e.1) (Nx : ℤ), wrapCoord (idx.2 + e.2) (Ny : ℤ))

/-- Interpret an integer coordinate as an index into one axis of the
grid.  The generated kernel indexes the flat distribution buffer directly
with the computed integer; on every coordinate the wraparound produces the
integer is already in range (`wrapCoord_eq_emod`), so the remainder taken
here is the identity on all coordinates the kernel actually computes. -/
def axisIdx (n : ℕ) [NeZero n] (z : ℤ) : Fin n :=
  ⟨(z % (n : ℤ)).toNat, by
    have h0 : (0:ℤ) < (n : ℤ) := by exact_mod_cast Nat.pos_of_ne_zero (NeZero.ne n)
    have h1 := Int.emod_nonneg z (ne_of_gt h0)
    have h2 := Int.emod_lt_of_pos z h0
    omega⟩

/-- Interpret an integer coordinate pair as a grid cell, per axis. -/
def toCell2 (Nx Ny : ℕ) [NeZero Nx] [NeZero Ny] (z : ℤ × ℤ) :
    Fin Nx × Fin Ny :=
  (axisIdx Nx z.1, axisIdx Ny z.2)

/-- One streaming pass of the generated standard-streaming kernel over the
whole grid (no-stream mask disabled): the external runtime launches the
emitted per-cell body once per cell, and for every direction `i` the body
stores the register value `f_reg[i] = f[(cell, i)]` to the wrapped
neighbour slot `(streamTarget2 cell (e i), i)` of `f_next`.  Every store of
the pass targets a distinct slot, so the fold order is irrelevant —
matching the data-parallel launch, which guarantees no ordering between
cells. -/
def genStream (Nx Ny : ℕ) [NeZero Nx] [NeZero Ny]
    (e : Fin 9 → ℤ × ℤ) (f : (Fin Nx × Fin Ny) × Fin 9 → ℚ) :
    (Fin Nx × Fin Ny) × Fin 9 → ℚ :=
  (((List.finRange Nx).product (List.finRange Ny)).product (List.finRange 9)).foldl
    (fun buf cq =>
      Function.update buf
        (toCell2 Nx Ny
          (streamTarget2 Nx Ny (((cq.1.1 : ℕ) : ℤ), ((cq.1.2 : ℕ) : ℤ)) (e cq.2)),
         cq.2)
        (f cq))
    (fun _ => 0)

/-- Modelled from the spec: the reference (array-based) streaming operator
("Streaming: spatial step moving each directional population to its
neighboring cell along its velocity vector, with periodic or other
boundary handling"; the reference implementations are outside `src/`).
After one periodic streaming step the population of direction `q` at cell
`y` is the population that was at the periodic predecessor `y - e q`. -/
def refStream (Nx Ny : ℕ) [NeZero Nx] [NeZero Ny]
    (e : Fin 9 → ℤ × ℤ) (f : (Fin Nx × Fin Ny) × Fin 9 → ℚ) :
    (Fin Nx × Fin Ny) × Fin 9 → ℚ :=
  fun yq =>
    f (toCell2 Nx Ny (((yq.1.1 : ℕ) : ℤ) - (e yq.2).1, ((yq.1.2 : ℕ) : ℤ) - (e yq.2).2),
       yq.2)

/-- Modelled from the spec: the BGK collision rule
`f_new = f - (f - f_eq)/tau` (§4.2), applied cell-locally; the equilibrium
closure is a function of the cell's own populations.  The native and
reference BGK implementations are not under `src/`; the spec fixes the
relaxation formula, which is identical on both sides of the equivalence. -/
def bgkCollide {Q : ℕ} {C : Type} (tau : ℚ) (feq : (Fin Q → ℚ) → Fin Q → ℚ)
    (f : C × Fin Q → ℚ) : C × Fin Q → ℚ :=
  fun cq => f cq - (f cq - feq (fun i => f (cq.1, i)) cq.2) / tau

/-- The D2Q9 stencil velocity table.  The stencil module is not under
`src/`, but the per-direction x and y components are fixed by
`src/lettuce/moments.py`: the `jx` and `jy` rows of the Dellar and
Lallemand matrices are exactly these components, and
`test_conserved_moments_d2q9` in `src/tests/test_moments.py` asserts that
they equal `moment_tensor(D2Q9.e, ...)`. -/
def D2Q9e : Fin 9 → ℤ × ℤ :=
  ![(0, 0), (1, 0), (0, 1), (-1, 0), (0, -1), (1, 1), (-1, 1), (-1, -1), (1, -1)]

/-! ## The Generator's shared state and the streaming generate methods

`src/lettuce/native_generator/_streaming.py` contributes fragments through
the orchestrator interface (`registered`/`register`,
`launcher_hooked`/`launcher_hook`, `kernel_hooked`/`kernel_hook`,
`append_*_buffer`).  The `Generator` class itself is not under `src/`; its
state is modelled from the spec (§3: FragmentKey registry, SlotTable,
CodeBuffers) with exactly the operations the streaming module calls. -/

/-- Modelled from the spec: the state a `Generator` owns for the duration
of one generation run — the FragmentKey registry, the two slot tables
(launcher side: name, declared type, parameter name, host expression;
kernel side: name, declared type, value expression), and the named code
buffers the streaming module appends to. -/
structure GenState where
  registeredKeys : List String
  launcherHooks : List (String × String × String × String)
  kernelHooks : List (String × String × String)
  indexBuffer : List String
  writeBuffer : List String
  preambleBuffer : List String
  wrapperBefore : List String
  wrapperAfter : List String
deriving DecidableEq

/-- Modelled from the spec: the empty state at the start of a generation
run (buffers "created empty at the start of generate()"). -/
def GenState.empty : GenState := ⟨[], [], [], [], [], [], [], []⟩

/-- `generator.registered(key)`: membership in the FragmentKey registry. -/
def GenState.registeredKey (s : GenState) (key : String) : Bool :=
  s.registeredKeys.contains key

/-- `generator.register(key)`: record a FragmentKey as emitted. -/
def GenState.registerKey (s : GenState) (key : String) : GenState :=
  { s with registeredKeys := s.registeredKeys ++ [key] }

/-- `generator.launcher_hooked(name)`: membership in the launcher slot
table. -/
def GenState.launcherHooked (s : GenState) (name : String) : Bool :=
  (s.launcherHooks.map (fun h => h.1)).contains name

/-- `generator.launcher_hook(name, type, param, expr)`. -/
def GenState.launcherHook (s : GenState) (name ty param expr : String) : GenState :=
  { s with launcherHooks := s.launcherHooks ++ [(name, ty, param, expr)] }

/-- `generator.kernel_hooked(name)`: membership in the kernel slot table. -/
def GenState.kernelHooked (s : GenState) (name : String) : Bool :=
  (s.kernelHooks.map (fun h => h.1)).contains name

/-- `generator.kernel_hook(name, type, expr)`. -/
def GenState.kernelHook (s : GenState) (name ty expr : String) : GenState :=
  { s with kernelHooks := s.kernelHooks ++ [(name, ty, expr)] }

/-- `generator.append_index_buffer(line, cond)`: append the line when the
condition holds (conditional line inclusion used for the per-dimension
lines). -/
def GenState.appendIndexBuffer (s : GenState) (line : String) (cond : Bool) : GenState :=
  { s with indexBuffer := if cond then s.indexBuffer ++ [line] else s.indexBuffer }

/-- `generator.append_write_buffer(line, cond)`. -/
def GenState.appendWriteBuffer (s : GenState) (line : String) (cond : Bool) : GenState :=
  { s with writeBuffer := if cond then s.writeBuffer ++ [line] else s.writeBuffer }

/-- Modelled from the spec: primitive fragments are "inserted
constant/expression definitions into the kernel preamble buffer". -/
def GenState.appendPreambleBuffer (s : GenState) (line : String) : GenState :=
  { s with preambleBuffer := s.preambleBuffer ++ [line] }

/-- `generator.append_python_wrapper_before_buffer(line)`. -/
def GenState.appendWrapperBefore (s : GenState) (line : String) : GenState :=
  { s with wrapperBefore := s.wrapperBefore ++ [line] }

/-- `generator.append_python_wrapper_after_buffer(line)`. -/
def GenState.appendWrapperAfter (s : GenState) (line : String) : GenState :=
  { s with wrapperAfter := s.wrapperAfter ++ [line] }

/-- Modelled from the spec (§4.1): a primitive generator — `generate_q`,
`generate_d`, `generate_e`, `generate_offset`, `generate_index`,
`generate_dimension` — is "requested by name and idempotent: calling twice
is a no-op after the first call registers the corresponding FragmentKey.
Output: inserted constant/expression definitions into the kernel preamble
buffer."  The fragment text is unspecified by both src/ and the spec and
is an opaque line per key. -/
def generatePrimitive (key frag : String) (s : GenState) : GenState :=
  if s.registeredKey key then s
  else (s.registerKey key).appendPreambleBuffer frag

/-- `NativeStreaming.generate_no_stream_mask` (src/lettuce/native_generator/
_streaming.py): hook the per-cell no-stream mask into the launcher slot
table (with a wrapper pre-launch assertion) and the kernel slot table,
each guarded by its own membership check. -/
def generate_no_stream_mask (s : GenState) : GenState :=
  let s1 :=
    if s.launcherHooked "no_stream_mask" then s
    else
      (s.appendWrapperBefore
        "assert hasattr(simulation.streaming, \x27no_stream_mask\x27)").launcherHook
        "no_stream_mask" "const at::Tensor no_stream_mask" "no_stream_mask"
        "simulation.streaming.no_stream_mask"
  if s1.kernelHooked "no_stream_mask" then s1
  else s1.kernelHook "no_stream_mask" "const byte_t* no_stream_mask"
    "no_stream_mask.data<byte_t>()"

/-- The statement the host-side wrapper executes after the kernel launch
when standard streaming is active: exchange the `f` and `f_next`
references (`NativeStandardStreaming.generate_f_next`). -/
def swapStatement : String :=
  "simulation.f, simulation.f_next = simulation.f_next, simulation.f"

/-- `NativeStandardStreaming.generate_f_next`: once per generation run
(guarded by the FragmentKey `f_next`), append the post-launch buffer swap
to the wrapper's after-buffer and hook `f_next` into the launcher and
kernel slot tables. -/
def generate_f_next (s : GenState) : GenState :=
  if s.registeredKey "f_next" then s
  else
    let s1 := (s.registerKey "f_next").appendWrapperAfter swapStatement
    let s2 :=
      if s1.launcherHooked "f_next" then s1
      else
        (s1.appendWrapperBefore "assert hasattr(simulation, \x27f_next\x27)").launcherHook
          "f_next" "at::Tensor f_next" "f_next" "simulation.f_next"
    if s2.kernelHooked "f_next" then s2
    else s2.kernelHook "f_next" "scalar_t *f_next" "f_next.data<scalar_t>()"


/-- `NativeStandardStreaming.generate_read_write`
(src/lettuce/native_generator/_streaming.py): guarded by the FragmentKey
`read_write()`; first the dependencies (the no-stream mask when supported,
`f_next`, and the offset/index/dimension/q/e primitives), then the emitted
read loop into the index buffer and the emitted write-back loop — with the
per-axis wraparound lines — into the write buffer.  `d` is the stencil
dimensionality `generator.stencil.stencil.D()`; `coord` and `maskCoord`
are the flattened-coordinate expressions returned by
`generator.lattice.get_lattice_coordinate` (the lattice module is outside
`src/`, so they are opaque strings here). -/
def NativeStandardStreaming.generate_read_write (supportMask : Bool) (d : ℕ)
    (coord maskCoord : String) (s : GenState) : GenState :=
  if s.registeredKey "read_write()" then s
  else
    (((((((if supportMask then generate_no_stream_mask (s.registerKey "read_write()")
           else s.registerKey "read_write()")
      |> generate_f_next)
      |> generatePrimitive "offset" "offset fragment")
      |> generatePrimitive "index" "index fragment")
      |> generatePrimitive "dimension" "dimension fragment")
      |> generatePrimitive "q" "q fragment")
      |> generatePrimitive "e" "e fragment")
    |>.appendIndexBuffer "                                      " true
    |>.appendIndexBuffer "  scalar_t f_reg[q];                  " true
    |>.appendIndexBuffer "                                      " true
    |>.appendIndexBuffer "#pragma unroll                        " true
    |>.appendIndexBuffer "  for (index_t i = 0; i < q; ++i) \x7b  " true
    |>.appendIndexBuffer "                                      " true
    |>.appendIndexBuffer "    const index_t q_ = i;             " true
    |>.appendIndexBuffer "    const index_t x_ = index[0];      " (decide (d > 0))
    |>.appendIndexBuffer "    const index_t y_ = index[1];      " (decide (d > 1))
    |>.appendIndexBuffer "    const index_t z_ = index[2];      " (decide (d > 2))
    |>.appendIndexBuffer "                                      " true
    |>.appendIndexBuffer ("    f_reg[i] = f[" ++ coord ++ "];            ") true
    |>.appendIndexBuffer "  \x7d                                  " true
    |>.appendIndexBuffer "                                      " true
    |>.appendWriteBuffer "                                                         " true
    |>.appendWriteBuffer "#pragma unroll                                           " true
    |>.appendWriteBuffer "  for (index_t i = 0; i < q; ++i) \x7b                     " true
    |>.appendWriteBuffer "                                                         " true
    |>.appendWriteBuffer "    const index_t q_ = i;                                " true
    |>.appendWriteBuffer "                                                         " supportMask
    |>.appendWriteBuffer ("    if (no_stream_mask[" ++ maskCoord ++ "]) \x7b                 ") supportMask
    |>.appendWriteBuffer "                                                         " supportMask
    |>.appendWriteBuffer "      const index_t x_ = index[0];                       " (supportMask && decide (d > 0))
    |>.appendWriteBuffer "      const index_t y_ = index[1];                       " (supportMask && decide (d > 1))
    |>.appendWriteBuffer "      const index_t z_ = index[2];                       " (supportMask && decide (d > 2))
    |>.appendWriteBuffer "                                                         " supportMask
    |>.appendWriteBuffer ("      f_next[" ++ coord ++ "] = f_reg[i];                        ") supportMask
    |>.appendWriteBuffer "                                                         " supportMask
    |>.appendWriteBuffer "    \x7d else \x7b                                           " supportMask
    |>.appendWriteBuffer "                                                         " true
    |>.appendWriteBuffer "      index_t x_ = index[0] + e[i][0];                   " (decide (d > 0))
    |>.appendWriteBuffer "            if (x_ <  0)            x_ += dimension[0];  " (decide (d > 0))
    |>.appendWriteBuffer "       else if (x_ >= dimension[0]) x_ -= dimension[0];  " (decide (d > 0))
    |>.appendWriteBuffer "                                                         " (decide (d > 0))
    |>.appendWriteBuffer "      index_t y_ = index[1] + e[i][1];                   " (decide (d > 1))
    |>.appendWriteBuffer "            if (y_ <  0)            y_ += dimension[1];  " (decide (d > 1))
    |>.appendWriteBuffer "       else if (y_ >= dimension[1]) y_ -= dimension[1];  " (decide (d > 1))
    |>.appendWriteBuffer "                                                         " (decide (d > 1))
    |>.appendWriteBuffer "      index_t z_ = index[2] + e[i][2];                   " (decide (d > 2))
    |>.appendWriteBuffer "            if (z_ <  0)            z_ += dimension[2];  " (decide (d > 2))
    |>.appendWriteBuffer "       else if (z_ >= dimension[2]) z_ -= dimension[2];  " (decide (d > 2))
    |>.appendWriteBuffer "                                                         " (decide (d > 2))
    |>.appendWriteBuffer ("      f_next[" ++ coord ++ "] = f_reg[i];                        ") true
    |>.appendWriteBuffer "                                                         " true
    |>.appendWriteBuffer "    \x7d                                                   " supportMask
    |>.appendWriteBuffer "  \x7d                                                     " true
    |>.appendWriteBuffer "                                                         " true

/-- `NativeNoStreaming.generate_read_write`
(src/lettuce/native_generator/_streaming.py): guarded by the same
FragmentKey `read_write()`; dependencies are the q/d/offset primitives,
then the read loop and the in-place write loop (single buffer, the cell's
own offset, no wraparound). -/
def NativeNoStreaming.generate_read_write (d : ℕ) (coord : String)
    (s : GenState) : GenState :=
  if s.registeredKey "read_write()" then s
  else
    (((s.registerKey "read_write()"
      |> generatePrimitive "q" "q fragment")
      |> generatePrimitive "d" "d fragment")
      |> generatePrimitive "offset" "offset fragment")
    |>.appendIndexBuffer "                                          " true
    |>.appendIndexBuffer "    scalar_t f_reg[q];                    " true
    |>.appendIndexBuffer "                                          " true
    |>.appendIndexBuffer "#pragma unroll                            " true
    |>.appendIndexBuffer "    for (index_t i = 0; i < q; ++i) \x7b    " true
    |>.appendIndexBuffer "                                          " true
    |>.appendIndexBuffer "      const index_t q_ = i;               " true
    |>.appendIndexBuffer "      const index_t x_ = index[0];        " (decide (d > 0))
    |>.appendIndexBuffer "      const index_t y_ = index[1];        " (decide (d > 1))
    |>.appendIndexBuffer "      const index_t z_ = index[2];        " (decide (d > 2))
    |>.appendIndexBuffer "                                          " true
    |>.appendIndexBuffer ("      f_reg[i] = f[" ++ coord ++ "];              ") true
    |>.appendIndexBuffer "    \x7d                                    " true
    |>.appendIndexBuffer "                                          " true
    |>.appendWriteBuffer "                                          " true
    |>.appendWriteBuffer "#pragma unroll                            " true
    |>.appendWriteBuffer "    for (index_t i = 0; i < q; ++i) \x7b    " true
    |>.appendWriteBuffer "                                          " true
    |>.appendWriteBuffer "      const index_t q_ = i;               " true
    |>.appendWriteBuffer "      const index_t x_ = index[0];        " (decide (d > 0))
    |>.appendWriteBuffer "      const index_t y_ = index[1];        " (decide (d > 1))
    |>.appendWriteBuffer "      const index_t z_ = index[2];        " (decide (d > 2))
    |>.appendWriteBuffer "                                          " true
    |>.appendWriteBuffer ("      f[" ++ coord ++ "] = f_reg[i];              ") true
    |>.appendWriteBuffer "    \x7d                                    " true
    |>.appendWriteBuffer "                                          " true

/-- Modelled from the spec (§4.3): `generate()` "resets all buffers and
the FragmentKey registry, then invokes, in fixed dependency order (stencil
primitives → equilibrium → collision → boundaries → streaming), each
configured component's top-level contribution entry point" and returns the
filled buffers.  The configured components are given as their contribution
functions in that fixed order; the prior state of the generator object is
discarded by the reset. -/
def Generator.generate (components : List (GenState → GenState))
    (_prior : GenState) : GenState :=
  components.foldl (fun s c => c s) GenState.empty

/-! ## Moment transforms (src/lettuce/moments.py) -/

/-- `D1Q3Transform.matrix`. -/
def D1Q3Transform.matrix : Matrix (Fin 3) (Fin 3) ℚ :=
  !![1, 1, 1;
     0, 1, -1;
     0, 1, 1]

/-- `D1Q3Transform.inverse`. -/
def D1Q3Transform.inverse : Matrix (Fin 3) (Fin 3) ℚ :=
  !![1, 0, -1;
     0, 1/2, 1/2;
     0, -1/2, 1/2]

/-- `D1Q3Transform.transform(f) = lattice.mv(matrix, f)`. -/
def D1Q3Transform.transform (f : Fin 3 → ℚ) : Fin 3 → ℚ :=
  D1Q3Transform.matrix.mulVec f

/-- `D1Q3Transform.inverse_transform(m) = lattice.mv(inverse, m)`. -/
def D1Q3Transform.inverse_transform (m : Fin 3 → ℚ) : Fin 3 → ℚ :=
  D1Q3Transform.inverse.mulVec m

/-- `D2Q9Dellar.matrix`. -/
def D2Q9Dellar.matrix : Matrix (Fin 9) (Fin 9) ℚ :=
  !![1, 1, 1, 1, 1, 1, 1, 1, 1;
     0, 1, 0, -1, 0, 1, -1, -1, 1;
     0, 0, 1, 0, -1, 1, 1, -1, -1;
     -3/2, 3, -3/2, 3, -3/2, 3, 3, 3, 3;
     0, 0, 0, 0, 0, 9, -9, 9, -9;
     -3/2, -3/2, 3, -3/2, 3, 3, 3, 3, 3;
     1, -2, -2, -2, -2, 4, 4, 4, 4;
     0, -2, 0, 2, 0, 4, -4, -4, 4;
     0, 0, -2, 0, 2, 4, 4, -4, -4]

/-- `D2Q9Dellar.inverse`. -/
def D2Q9Dellar.inverse : Matrix (Fin 9) (Fin 9) ℚ :=
  !![4/9, 0, 0, -4/27, 0, -4/27, 1/9, 0, 0;
     1/9, 1/3, 0, 2/27, 0, -1/27, -1/18, -1/12, 0;
     1/9, 0, 1/3, -1/27, 0, 2/27, -1/18, 0, -1/12;
     1/9, -1/3, 0, 2/27, 0, -1/27, -1/18, 1/12, 0;
     1/9, 0, -1/3, -1/27, 0, 2/27, -1/18, 0, 1/12;
     1/36, 1/12, 1/12, 1/54, 1/36, 1/54, 1/36, 1/24, 1/24;
     1/36, -1/12, 1/12, 1/54, -1/36, 1/54, 1/36, -1/24, 1/24;
     1/36, -1/12, -1/12, 1/54, 1/36, 1/54, 1/36, -1/24, -1/24;
     1/36, 1/12, -1/12, 1/54, -1/36, 1/54, 1/36, 1/24, -1/24]

/-- `D2Q9Dellar.transform(f) = lattice.mv(matrix, f)`. -/
def D2Q9Dellar.transform (f : Fin 9 → ℚ) : Fin 9 → ℚ :=
  D2Q9Dellar.matrix.mulVec f

/-- `D2Q9Dellar.inverse_transform(m) = lattice.mv(inverse, m)`. -/
def D2Q9Dellar.inverse_transform (m : Fin 9 → ℚ) : Fin 9 → ℚ :=
  D2Q9Dellar.inverse.mulVec m

/-- `D2Q9Lallemand.matrix`. -/
def D2Q9Lallemand.matrix : Matrix (Fin 9) (Fin 9) ℚ :=
  !![1, 1, 1, 1, 1, 1, 1, 1, 1;
     0, 1, 0, -1, 0, 1, -1, -1, 1;
     0, 0, 1, 0, -1, 1, 1, -1, -1;
     0, 1, -1, 1, -1, 0, 0, 0, 0;
     0, 0, 0, 0, 0, 1, -1, 1, -1;
     -4, -1, -1, -1, -1, 2, 2, 2, 2;
     0, -2, 0, 2, 0, 1, -1, -1, 1;
     0, 0, -2, 0, 2, 1, 1, -1, -1;
     4, -2, -2, -2, -2, 1, 1, 1, 1]

/-- `D2Q9Lallemand.inverse`. -/
def D2Q9Lallemand.inverse : Matrix (Fin 9) (Fin 9) ℚ :=
  !![1/9, 0, 0, 0, 0, -1/9, 0, 0, 1/9;
     1/9, 1/6, 0, 1/4, 0, -1/36, -1/6, 0, -1/18;
     1/9, 0, 1/6, -1/4, 0, -1/36, 0, -1/6, -1/18;
     1/9, -1/6, 0, 1/4, 0, -1/36, 1/6, 0, -1/18;
     1/9, 0, -1/6, -1/4, 0, -1/36, 0, 1/6, -1/18;
     1/9, 1/6, 1/6, 0, 1/4, 1/18, 1/12, 1/12, 1/36;
     1/9, -1/6, 1/6, 0, -1/4, 1/18, -1/12, 1/12, 1/36;
     1/9, -1/6, -1/6, 0, 1/4, 1/18, -1/12, -1/12, 1/36;
     1/9, 1/6, -1/6, 0, -1/4, 1/18, 1/12, -1/12, 1/36]

/-- `D2Q9Lallemand.transform(f) = lattice.mv(matrix, f)`. -/
def D2Q9Lallemand.transform (f : Fin 9 → ℚ) : Fin 9 → ℚ :=
  D2Q9Lallemand.matrix.mulVec f

/-- `D2Q9Lallemand.inverse_transform(m) = lattice.mv(inverse, m)`. -/
def D2Q9Lallemand.inverse_transform (m : Fin 9 → ℚ) : Fin 9 → ℚ :=
  D2Q9Lallemand.inverse.mulVec m

/-! ## Boundaries (src/lettuce/boundary.py) -/

/-- The direction-validation condition asserted by
`AntiBounceBackOutlet.__init__` (the `isinstance(direction, list)` part is
a typing fact and holds for every `List ℤ`):
`len(direction) in [1,2,3] and abs(sum(direction)) == 1 and
 np.max(np.abs(direction)) == 1 and (1 in direction) ^ (-1 in direction)`.
`np.max(np.abs(direction))` is the fold of `max` over the absolute values
(the length guard keeps the list nonempty, so the fold with initial
value 0 is `np.max`; for the all-zero list both are 0 ≠ 1). -/
def validDirection (dir : List ℤ) : Bool :=
  (dir.length == 1 || dir.length == 2 || dir.length == 3) &&
  (dir.sum.natAbs == 1) &&
  ((dir.map Int.natAbs).foldl max 0 == 1) &&
  (xor (dir.contains 1) (dir.contains (-1)))

/-- The exception text of the failed assertion, naming the offending
value: `f"Wrong direction. Expected list of length 1, 2 or 3 with all
entrys 0 except one 1 or -1, but got {type(direction)} of size
{len(direction)} and entrys {direction}."` (for a list argument
`{type(direction)}` renders as `<class 'list'>`). -/
def wrongDirectionMessage (dir : List ℤ) : String :=
  "Wrong direction. Expected list of length 1, 2 or 3 with all entrys 0 except one 1 or -1, but got <class \x27list\x27> of size "
    ++ toString dir.length ++ " and entrys " ++ toString dir ++ "."

/-- The claim's phrasing of a well-formed direction: the list of nonzero
entries is exactly one entry equal to `+1` or to `-1`. -/
def exactlyOneNonzeroUnit (dir : List ℤ) : Prop :=
  dir.filter (fun x => x != 0) = [1] ∨ dir.filter (fun x => x != 0) = [-1]

/-- The velocity selection of `AntiBounceBackOutlet.__init__` on D2Q9:
`np.argwhere(np.matmul(self.lattice.stencil.e, direction) == 1)` — the
stencil directions whose projection onto the boundary direction equals
one. -/
def selectedVelocities (dir : ℤ × ℤ) : List (Fin 9) :=
  (List.finRange 9).filter
    (fun i => ((D2Q9e i).1 * dir.1 + (D2Q9e i).2 * dir.2) == 1)

/-- `BounceBackBoundary.__call__`
(src/lettuce/boundary.py): `f = torch.where(self.mask,
f[self.lattice.stencil.opposite], f)`; the per-cell boolean mask
broadcasts over the leading direction axis of `f[q, x, y(, z)]`. -/
def bounceBackBoundary {Q : ℕ} {C : Type} (opposite : Fin Q → Fin Q)
    (mask : C → Bool) (f : Fin Q → C → ℚ) : Fin Q → C → ℚ :=
  fun q c => if mask c then f (opposite q) c else f q c

/-- `EquilibriumBoundaryPU.__call__` (src/lettuce/boundary.py): `feq` is
the equilibrium computed from the stored velocity and pressure — one value
per direction, constant across cells, broadcast over the grid by the
`einsum("q,q->q", [feq, ones_like(f)])`; the unit conversion and
`lattice.equilibrium` are outside `src/`, so `feq` is an input here — then
`f = torch.where(self.mask, feq, f)`. -/
def equilibriumBoundaryPU {Q : ℕ} {C : Type} (mask : C → Bool)
    (feq : Fin Q → ℚ) (f : Fin Q → C → ℚ) : Fin Q → C → ℚ :=
  fun q c => if mask c then feq q else f q c

/-! ## BGK initialization (src/lettuce/ext/_collision/bgk_initialization.py) -/

/-- `BGKInitialization.__call__` at one lattice site.  `rho` is
`flow.rho()` at the site and `feq = flow.equilibrium(flow, rho, self.u)`
(both computed by modules outside `src/`, taken as inputs); `T`/`Tinv` are
`self.moment_transformation.transform`/`.inverse_transform`;
`momentumIndices` is `moment_transformation[("jx", "jy", "jz")[:d]]` and
`u` the velocity fixed at construction.  The body is
`m = T f; meq = T feq; mnew = m - 1/tau * (m - meq);
mnew[0] = m[0] - 1/(tau+1) * (m[0] - meq[0]);
mnew[momentum_indices] = rho * u; return Tinv mnew`, with the fancy-index
assignment performed entry by entry in index order. -/
def bgkInitialization {Q dd : ℕ} [NeZero Q]
    (T Tinv : (Fin Q → ℚ) → (Fin Q → ℚ)) (tau : ℚ)
    (momentumIndices : Fin dd → Fin Q) (u : Fin dd → ℚ)
    (rho : ℚ) (feq f : Fin Q → ℚ) : Fin Q → ℚ :=
  let m := T f
  let meq := T feq
  let mnew : Fin Q → ℚ := fun i => m i - 1 / tau * (m i - meq i)
  let mnew1 := Function.update mnew 0 (m 0 - 1 / (tau + 1) * (m 0 - meq 0))
  let mnew2 := (List.finRange dd).foldl
    (fun acc k => Function.update acc (momentumIndices k) (rho * u k)) mnew1
  Tinv mnew2

/-! ## Properties of the wraparound and of scatter stores -/

/-- On arguments that are at most one extent out of range on either side,
the emitted wraparound agrees with the mathematical remainder `x % n`. -/
theorem wrapCoord_eq_emod (x n : ℤ) (h1 : -n ≤ x) (h2 : x < 2 * n) :
    wrapCoord x n = x % n := by
  unfold wrapCoord
  by_cases hx : x < 0
  · have hn : 0 < n := by omega
    have h3 : (0:ℤ) ≤ x + n := by omega
    have h4 : x + n < n := by omega
    have : (x + n) % n = x + n := Int.emod_eq_of_lt h3 h4
    have h5 : (x + n) % n = x % n := by simpa using Int.add_mul_emod_self_left x n 1
    simp only [if_pos hx]
    omega
  · by_cases hg : x ≥ n
    · have h3 : (0:ℤ) ≤ x - n := by omega
      have h4 : x - n < n := by omega
      have : (x - n) % n = x - n := Int.emod_eq_of_lt h3 h4
      have h5 : (x - n) % n = x % n := by
        have := Int.add_mul_emod_self_left x n (-1)
        simpa [mul_comm] using this
      simp only [if_neg hx, if_pos hg]
      omega
    · have h3 : (0:ℤ) ≤ x := by omega
      have h4 : x < n := by omega
      simp only [if_neg hx, if_neg hg]
      exact (Int.emod_eq_of_lt h3 h4).symm

/-! ## Scatter stores

The generated write-back performs array stores `f_next[slot] = value`.  A
buffer is a total function from slots to values and a sequence of stores is
a left fold of pointwise updates.  The two lemmas below evaluate such a
fold at a slot that is stored to exactly once resp. never. -/

/-- Evaluating a fold of stores at a slot none of the stores targets
returns the initial buffer's content. -/
theorem foldl_update_of_forall_ne {ι K V : Type*} [DecidableEq K]
    (l : List ι) (key : ι → K) (val : ι → V) (init : K → V) (k : K)
    (h : ∀ j ∈ l, key j ≠ k) :
    (l.foldl (fun b j => Function.update b (key j) (val j)) init) k = init k := by
  induction l generalizing init with
  | nil => rfl
  | cons a t ih =>
    simp only [List.foldl_cons]
    rw [ih _ (fun j hj => h j (List.mem_cons_of_mem a hj))]
    exact Function.update_noteq (Ne.symm (h a (List.mem_cons_self a t))) _ _

/-- Evaluating a fold of stores with pairwise distinct target slots at the
slot of one of the stores returns that store's value. -/
theorem foldl_update_of_mem {ι K V : Type*} [DecidableEq K]
    (l : List ι) (key : ι → K) (val : ι → V) (init : K → V)
    (hnd : (l.map key).Nodup) (j : ι) (hj : j ∈ l) :
    (l.foldl (fun b j => Function.update b (key j) (val j)) init) (key j) = val j := by
  induction l generalizing init with
  | nil => cases hj
  | cons a t ih =>
    simp only [List.map_cons, List.nodup_cons] at hnd
    simp only [List.foldl_cons]
    rcases List.mem_cons.mp hj with rfl | hjt
    · rw [foldl_update_of_forall_ne t key val _ (key j)
        (fun i hi hik => hnd.1 (hik ▸ List.mem_map_of_mem key hi))]
      exact Function.update_same _ _ _
    · exact ih _ hnd.2 hjt

/-- The integer value of an `axisIdx` is the remainder. -/
theorem axisIdx_coe (n : ℕ) [NeZero n] (z : ℤ) :
    ((axisIdx n z : ℕ) : ℤ) = z % (n : ℤ) := by
  have h0 : (0:ℤ) < (n : ℤ) := by exact_mod_cast Nat.pos_of_ne_zero (NeZero.ne n)
  have h1 := Int.emod_nonneg z (ne_of_gt h0)
  simp [axisIdx, Int.toNat_of_nonneg h1]

/-- For a coordinate taken from the grid and a direction component of
magnitude at most one, the emitted wraparound equals the remainder. -/
theorem wrapCoord_fin_add (n : ℕ) [NeZero n] (c : Fin n) (t : ℤ)
    (ht : t.natAbs ≤ 1) :
    wrapCoord (((c : ℕ) : ℤ) + t) (n : ℤ) = (((c : ℕ) : ℤ) + t) % (n : ℤ) := by
  have hn : 0 < n := Nat.pos_of_ne_zero (NeZero.ne n)
  have hc : (c : ℕ) < n := c.isLt
  apply wrapCoord_eq_emod <;> omega

/-- Distinct cells stream to distinct targets (per axis): the store targets
of one direction are pairwise distinct. -/
theorem axisIdx_wrap_injective (n : ℕ) [NeZero n] (t : ℤ) (ht : t.natAbs ≤ 1)
    (c c' : Fin n)
    (h : axisIdx n (wrapCoord (((c : ℕ) : ℤ) + t) (n : ℤ))
       = axisIdx n (wrapCoord (((c' : ℕ) : ℤ) + t) (n : ℤ))) : c = c' := by
  have hn : 0 < n := Nat.pos_of_ne_zero (NeZero.ne n)
  have h1 : ((axisIdx n (wrapCoord (((c : ℕ) : ℤ) + t) (n : ℤ)) : ℕ) : ℤ)
      = ((axisIdx n (wrapCoord (((c' : ℕ) : ℤ) + t) (n : ℤ)) : ℕ) : ℤ) := by
    exact_mod_cast congrArg (fun x : Fin n => ((x : ℕ) : ℤ)) h
  rw [axisIdx_coe, axisIdx_coe, wrapCoord_fin_add n c t ht,
    wrapCoord_fin_add n c' t ht,
    Int.emod_emod_of_dvd _ (dvd_refl (n : ℤ)),
    Int.emod_emod_of_dvd _ (dvd_refl (n : ℤ))] at h1
  have h2 : (((c : ℕ) : ℤ) + t + -t) % (n : ℤ) = (((c' : ℕ) : ℤ) + t + -t) % (n : ℤ) := by
    rw [← Int.emod_add_emod, h1, Int.emod_add_emod]
  have hcn : ((c : ℕ) : ℤ) % (n : ℤ) = ((c' : ℕ) : ℤ) % (n : ℤ) := by
    simpa using h2
  have hc : (c : ℕ) < n := c.isLt
  have hc' : (c' : ℕ) < n := c'.isLt
  have e1 : ((c : ℕ) : ℤ) % (n : ℤ) = ((c : ℕ) : ℤ) :=
    Int.emod_eq_of_lt (by omega) (by omega)
  have e2 : ((c' : ℕ) : ℤ) % (n : ℤ) = ((c' : ℕ) : ℤ) :=
    Int.emod_eq_of_lt (by omega) (by omega)
  apply Fin.ext
  omega

/-- The cell that streams onto `y` in a direction with component `t` is the
periodic predecessor `y - t`: stated as the round trip through the emitted
wraparound. -/
theorem axisIdx_wrap_pred (n : ℕ) [NeZero n] (t : ℤ) (ht : t.natAbs ≤ 1)
    (y : Fin n) :
    axisIdx n (wrapCoord (((axisIdx n (((y : ℕ) : ℤ) - t) : ℕ) : ℤ) + t) (n : ℤ)) = y := by
  have hn : 0 < n := Nat.pos_of_ne_zero (NeZero.ne n)
  have hy : (y : ℕ) < n := y.isLt
  have hv : ((axisIdx n
      (wrapCoord (((axisIdx n (((y : ℕ) : ℤ) - t) : ℕ) : ℤ) + t) (n : ℤ)) : ℕ) : ℤ)
      = ((y : ℕ) : ℤ) := by
    rw [axisIdx_coe n
        (wrapCoord (((axisIdx n (((y : ℕ) : ℤ) - t) : ℕ) : ℤ) + t) (n : ℤ)),
      wrapCoord_fin_add n (axisIdx n (((y : ℕ) : ℤ) - t)) t ht,
      Int.emod_emod_of_dvd _ (dvd_refl (n : ℤ)),
      axisIdx_coe n (((y : ℕ) : ℤ) - t), Int.emod_add_emod,
      sub_add_cancel]
    exact Int.emod_eq_of_lt (by omega) (by omega)
  apply Fin.ext
  exact_mod_cast hv

/-- The generated streaming pass agrees with the reference periodic
streaming operator at every cell and direction, for any stencil whose
direction components have magnitude at most one. -/
theorem genStream_eq_refStream (Nx Ny : ℕ) [NeZero Nx] [NeZero Ny]
    (e : Fin 9 → ℤ × ℤ) (he : ∀ q, (e q).1.natAbs ≤ 1 ∧ (e q).2.natAbs ≤ 1)
    (f : (Fin Nx × Fin Ny) × Fin 9 → ℚ) (yq : (Fin Nx × Fin Ny) × Fin 9) :
    genStream Nx Ny e f yq = refStream Nx Ny e f yq := by
  obtain ⟨y, q⟩ := yq
  have hkey :
      Function.Injective (fun cq : (Fin Nx × Fin Ny) × Fin 9 =>
        (toCell2 Nx Ny
          (streamTarget2 Nx Ny (((cq.1.1 : ℕ) : ℤ), ((cq.1.2 : ℕ) : ℤ)) (e cq.2)),
         cq.2)) := by
    rintro ⟨⟨c1, c2⟩, i⟩ ⟨⟨c1', c2'⟩, i'⟩ hcc
    simp only [Prod.mk.injEq] at hcc
    obtain ⟨htc, rfl⟩ := hcc
    simp only [toCell2, streamTarget2, Prod.mk.injEq] at htc
    have h1 := axisIdx_wrap_injective Nx (e i).1 (he i).1 c1 c1' htc.1
    have h2 := axisIdx_wrap_injective Ny (e i).2 (he i).2 c2 c2' htc.2
    simp [h1, h2]
  have hnd :
      (((((List.finRange Nx).product (List.finRange Ny)).product (List.finRange 9)).map
        (fun cq : (Fin Nx × Fin Ny) × Fin 9 =>
          (toCell2 Nx Ny
            (streamTarget2 Nx Ny (((cq.1.1 : ℕ) : ℤ), ((cq.1.2 : ℕ) : ℤ)) (e cq.2)),
           cq.2)))).Nodup :=
    List.Nodup.map hkey
      (((List.nodup_finRange Nx).product (List.nodup_finRange Ny)).product
        (List.nodup_finRange 9))
  have hmem :
      ((toCell2 Nx Ny (((y.1 : ℕ) : ℤ) - (e q).1, ((y.2 : ℕ) : ℤ) - (e q).2), q) ∈
        (((List.finRange Nx).product (List.finRange Ny)).product (List.finRange 9))) := by
    simp [toCell2, List.mem_product, List.mem_finRange]
  have hfold := foldl_update_of_mem
    ((((List.finRange Nx).product (List.finRange Ny)).product (List.finRange 9)))
    (fun cq : (Fin Nx × Fin Ny) × Fin 9 =>
      (toCell2 Nx Ny
        (streamTarget2 Nx Ny (((cq.1.1 : ℕ) : ℤ), ((cq.1.2 : ℕ) : ℤ)) (e cq.2)),
       cq.2))
    (fun cq => f cq) (fun _ => 0) hnd
    ((toCell2 Nx Ny (((y.1 : ℕ) : ℤ) - (e q).1, ((y.2 : ℕ) : ℤ) - (e q).2), q)) hmem
  have hback :
      ((fun cq : (Fin Nx × Fin Ny) × Fin 9 =>
        (toCell2 Nx Ny
          (streamTarget2 Nx Ny (((cq.1.1 : ℕ) : ℤ), ((cq.1.2 : ℕ) : ℤ)) (e cq.2)),
         cq.2))
        ((toCell2 Nx Ny (((y.1 : ℕ) : ℤ) - (e q).1, ((y.2 : ℕ) : ℤ) - (e q).2), q)))
      = (y, q) := by
    have hp1 := axisIdx_wrap_pred Nx (e q).1 (he q).1 y.1
    have hp2 := axisIdx_wrap_pred Ny (e q).2 (he q).2 y.2
    simp only [toCell2, streamTarget2, Prod.mk.injEq]
    simp_all
  rw [hback] at hfold
  exact hfold

/-! ## Bookkeeping lemmas for the generator state -/

theorem registeredKey_iff (s : GenState) (k : String) :
    s.registeredKey k = true ↔ k ∈ s.registeredKeys := by
  simp [GenState.registeredKey, List.elem_iff]

theorem rk_registerKey (s : GenState) (k : String) :
    (s.registerKey k).registeredKeys = s.registeredKeys ++ [k] := rfl

theorem rk_appendIndexBuffer (s : GenState) (l : String) (c : Bool) :
    (s.appendIndexBuffer l c).registeredKeys = s.registeredKeys := rfl

theorem rk_appendWriteBuffer (s : GenState) (l : String) (c : Bool) :
    (s.appendWriteBuffer l c).registeredKeys = s.registeredKeys := rfl

theorem rk_generate_no_stream_mask (s : GenState) :
    (generate_no_stream_mask s).registeredKeys = s.registeredKeys := by
  unfold generate_no_stream_mask
  split <;> (dsimp only [] <;> split <;> rfl)

theorem mem_rk_generate_f_next (s : GenState) (k : String)
    (h : k ∈ s.registeredKeys) : k ∈ (generate_f_next s).registeredKeys := by
  unfold generate_f_next
  split
  · exact h
  · dsimp only []
    split <;> split <;>
      simp_all [GenState.kernelHook, GenState.launcherHook, GenState.registerKey,
        GenState.appendWrapperBefore, GenState.appendWrapperAfter]

theorem mem_rk_generatePrimitive (key frag : String) (s : GenState) (k : String)
    (h : k ∈ s.registeredKeys) : k ∈ (generatePrimitive key frag s).registeredKeys := by
  unfold generatePrimitive
  split
  · exact h
  · simp_all [GenState.registerKey, GenState.appendPreambleBuffer]

theorem hooked_generate_no_stream_mask (s : GenState) :
    (generate_no_stream_mask s).launcherHooked "no_stream_mask" = true ∧
    (generate_no_stream_mask s).kernelHooked "no_stream_mask" = true := by
  unfold generate_no_stream_mask
  dsimp only []
  split <;> split <;>
    constructor <;>
      simp_all [GenState.launcherHooked, GenState.kernelHooked, GenState.launcherHook,
        GenState.kernelHook, GenState.appendWrapperBefore, List.elem_iff]

theorem generate_no_stream_mask_of_hooked (s : GenState)
    (h1 : s.launcherHooked "no_stream_mask" = true)
    (h2 : s.kernelHooked "no_stream_mask" = true) :
    generate_no_stream_mask s = s := by
  unfold generate_no_stream_mask
  simp [h1, h2]

theorem generate_f_next_of_registered (s : GenState)
    (h : s.registeredKey "f_next" = true) : generate_f_next s = s := by
  unfold generate_f_next
  simp [h]

theorem mem_f_next_generate_f_next (s : GenState) :
    "f_next" ∈ (generate_f_next s).registeredKeys := by
  unfold generate_f_next
  split
  · exact (registeredKey_iff s _).mp ‹_›
  · dsimp only []
    split <;> split <;>
      simp_all [GenState.kernelHook, GenState.launcherHook, GenState.registerKey,
        GenState.appendWrapperBefore, GenState.appendWrapperAfter]

theorem generatePrimitive_of_registered (key frag : String) (s : GenState)
    (h : s.registeredKey key = true) : generatePrimitive key frag s = s := by
  unfold generatePrimitive
  simp [h]

theorem mem_key_generatePrimitive (key frag : String) (s : GenState) :
    key ∈ (generatePrimitive key frag s).registeredKeys := by
  unfold generatePrimitive
  split
  · exact (registeredKey_iff s _).mp ‹_›
  · simp [GenState.registerKey, GenState.appendPreambleBuffer]

theorem std_grw_of_registered (sm : Bool) (d : ℕ) (coord mc : String)
    (s : GenState) (h : s.registeredKey "read_write()" = true) :
    NativeStandardStreaming.generate_read_write sm d coord mc s = s := by
  unfold NativeStandardStreaming.generate_read_write
  simp [h]

theorem no_grw_of_registered (d : ℕ) (coord : String)
    (s : GenState) (h : s.registeredKey "read_write()" = true) :
    NativeNoStreaming.generate_read_write d coord s = s := by
  unfold NativeNoStreaming.generate_read_write
  simp [h]

theorem mem_rw_std_grw (sm : Bool) (d : ℕ) (coord mc : String) (s : GenState) :
    "read_write()" ∈
      (NativeStandardStreaming.generate_read_write sm d coord mc s).registeredKeys := by
  unfold NativeStandardStreaming.generate_read_write
  split
  · exact (registeredKey_iff s _).mp ‹_›
  · simp only [rk_appendIndexBuffer, rk_appendWriteBuffer]
    apply mem_rk_generatePrimitive
    apply mem_rk_generatePrimitive
    apply mem_rk_generatePrimitive
    apply mem_rk_generatePrimitive
    apply mem_rk_generatePrimitive
    apply mem_rk_generate_f_next
    split
    · rw [rk_generate_no_stream_mask, rk_registerKey]
      simp
    · rw [rk_registerKey]
      simp

theorem mem_rw_no_grw (d : ℕ) (coord : String) (s : GenState) :
    "read_write()" ∈ (NativeNoStreaming.generate_read_write d coord s).registeredKeys := by
  unfold NativeNoStreaming.generate_read_write
  split
  · exact (registeredKey_iff s _).mp ‹_›
  · simp only [rk_appendIndexBuffer, rk_appendWriteBuffer]
    apply mem_rk_generatePrimitive
    apply mem_rk_generatePrimitive
    apply mem_rk_generatePrimitive
    rw [rk_registerKey]
    simp

theorem wa_appendIndexBuffer (s : GenState) (l : String) (c : Bool) :
    (s.appendIndexBuffer l c).wrapperAfter = s.wrapperAfter := rfl

theorem wa_appendWriteBuffer (s : GenState) (l : String) (c : Bool) :
    (s.appendWriteBuffer l c).wrapperAfter = s.wrapperAfter := rfl

theorem wa_generatePrimitive (key frag : String) (s : GenState) :
    (generatePrimitive key frag s).wrapperAfter = s.wrapperAfter := by
  unfold generatePrimitive
  split <;> rfl

theorem wa_generate_no_stream_mask (s : GenState) :
    (generate_no_stream_mask s).wrapperAfter = s.wrapperAfter := by
  unfold generate_no_stream_mask
  split <;> (dsimp only [] <;> split <;> rfl)

theorem wa_generate_f_next (s : GenState) :
    (generate_f_next s).wrapperAfter =
      if s.registeredKey "f_next" = true then s.wrapperAfter
      else s.wrapperAfter ++ [swapStatement] := by
  unfold generate_f_next
  split <;> rename_i h
  · rfl
  · dsimp only []
    split <;> split <;>
      simp_all [GenState.kernelHook, GenState.launcherHook, GenState.registerKey,
        GenState.appendWrapperBefore, GenState.appendWrapperAfter]

theorem rk_f_next_after_register (sm : Bool) (s : GenState) :
    ((if sm then generate_no_stream_mask (s.registerKey "read_write()")
      else s.registerKey "read_write()").registeredKey "f_next")
      = s.registeredKey "f_next" := by
  have h : ((if sm then generate_no_stream_mask (s.registerKey "read_write()")
      else s.registerKey "read_write()").registeredKeys)
      = s.registeredKeys ++ ["read_write()"] := by
    split
    · rw [rk_generate_no_stream_mask]
      rfl
    · rfl
  by_cases hf : s.registeredKey "f_next" = true
  · rw [hf]
    exact (registeredKey_iff _ _).mpr
      (by rw [h]; exact List.mem_append_left _ ((registeredKey_iff s _).mp hf))
  · simp only [Bool.not_eq_true] at hf
    rw [hf]
    apply Bool.eq_false_iff.mpr
    intro hc
    have hm := (registeredKey_iff _ _).mp hc
    rw [h] at hm
    rcases List.mem_append.mp hm with hm1 | hm1
    · exact absurd ((registeredKey_iff s _).mpr hm1) (by simp [hf])
    · exact absurd (List.mem_singleton.mp hm1) (by decide)

theorem wa_std_grw (sm : Bool) (d : ℕ) (coord mc : String) (s : GenState) :
    (NativeStandardStreaming.generate_read_write sm d coord mc s).wrapperAfter
      = if s.registeredKey "read_write()" = true then s.wrapperAfter
        else if s.registeredKey "f_next" = true then s.wrapperAfter
        else s.wrapperAfter ++ [swapStatement] := by
  unfold NativeStandardStreaming.generate_read_write
  split <;> rename_i h
  · rfl
  · simp only [wa_appendIndexBuffer, wa_appendWriteBuffer, wa_generatePrimitive]
    rw [wa_generate_f_next, rk_f_next_after_register sm s]
    have hwa : ((if sm then generate_no_stream_mask (s.registerKey "read_write()")
        else s.registerKey "read_write()").wrapperAfter) = s.wrapperAfter := by
      split
      · rw [wa_generate_no_stream_mask]
        rfl
      · rfl
    rw [hwa]

/-! ## Arithmetic facts about the direction validation (C5) -/

theorem init_le_foldl_max (l : List ℕ) (a : ℕ) : a ≤ l.foldl max a := by
  induction l generalizing a with
  | nil => exact le_refl a
  | cons b t ih => exact le_trans (le_max_left a b) (ih (max a b))

theorem mem_le_foldl_max (l : List ℕ) (a x : ℕ) (hx : x ∈ l) :
    x ≤ l.foldl max a := by
  induction l generalizing a with
  | nil => cases hx
  | cons b t ih =>
    rcases List.mem_cons.mp hx with rfl | h
    · exact le_trans (le_max_right a x) (init_le_foldl_max t (max a x))
    · exact ih (max a b) h

theorem sum_eq_counts (l : List ℤ)
    (h : ∀ x ∈ l, x = 0 ∨ x = 1 ∨ x = -1) :
    l.sum = (l.count 1 : ℤ) - (l.count (-1) : ℤ) := by
  induction l with
  | nil => simp
  | cons b t ih =>
    have hb := h b (List.mem_cons_self b t)
    have ht := ih (fun x hx => h x (List.mem_cons_of_mem b hx))
    rcases hb with rfl | rfl | rfl <;>
      simp [List.count_cons, List.sum_cons, ht] <;> push_cast <;> ring

theorem filter_nonzero_eq_replicate (l : List ℤ) (c : ℤ) (hc : c ≠ 0)
    (h : ∀ x ∈ l, x = 0 ∨ x = c) :
    l.filter (fun x => x != 0) = List.replicate (l.count c) c := by
  induction l with
  | nil => simp
  | cons b t ih =>
    have hb := h b (List.mem_cons_self b t)
    have ht := ih (fun x hx => h x (List.mem_cons_of_mem b hx))
    rcases hb with rfl | rfl
    · simp [List.filter_cons, List.count_cons, ht, Ne.symm hc]
    · simp [List.filter_cons, List.count_cons, ht, hc, List.replicate_succ]

theorem validDirection_exactlyOne (dir : List ℤ)
    (h : validDirection dir = true) : exactlyOneNonzeroUnit dir := by
  unfold validDirection at h
  simp only [Bool.and_eq_true, Bool.or_eq_true, beq_iff_eq] at h
  obtain ⟨⟨⟨hlen, hsum⟩, hmax⟩, hxor⟩ := h
  have hball : ∀ x ∈ dir, x.natAbs ≤ 1 := by
    intro x hx
    have hm := mem_le_foldl_max (dir.map Int.natAbs) 0 x.natAbs
      (List.mem_map_of_mem Int.natAbs hx)
    rw [hmax] at hm
    exact hm
  have hunit : ∀ x ∈ dir, x = 0 ∨ x = 1 ∨ x = -1 := by
    intro x hx
    have := hball x hx
    omega
  have hcounts := sum_eq_counts dir hunit
  cases h1 : dir.contains 1 <;> cases h2 : dir.contains (-1) <;>
    rw [h1, h2] at hxor <;> simp at hxor
  · -- contains -1, not 1
    have hnot1 : (1 : ℤ) ∉ dir := by
      intro hm
      have h1' : dir.elem 1 = false := h1
      have h2' := List.elem_iff.mpr hm
      rw [h1'] at h2'
      exact Bool.false_ne_true h2'
    have hc1 : dir.count 1 = 0 := List.count_eq_zero.mpr hnot1
    have hc : dir.count (-1) = 1 := by
      rw [hc1] at hcounts
      omega
    right
    have h01 : ∀ x ∈ dir, x = 0 ∨ x = -1 := by
      intro x hx
      rcases hunit x hx with rfl | rfl | rfl
      · exact Or.inl rfl
      · exact absurd hx hnot1
      · exact Or.inr rfl
    rw [filter_nonzero_eq_replicate dir (-1) (by decide) h01, hc]
    rfl
  · -- contains 1, not -1
    have hnotm : (-1 : ℤ) ∉ dir := by
      intro hm
      have h2a : dir.elem (-1) = false := h2
      have h2b := List.elem_iff.mpr hm
      rw [h2a] at h2b
      exact Bool.false_ne_true h2b
    have hcm : dir.count (-1) = 0 := List.count_eq_zero.mpr hnotm
    have hc : dir.count 1 = 1 := by
      rw [hcm] at hcounts
      omega
    left
    have h01 : ∀ x ∈ dir, x = 0 ∨ x = 1 := by
      intro x hx
      rcases hunit x hx with rfl | rfl | rfl
      · exact Or.inl rfl
      · exact Or.inr rfl
      · exact absurd hx hnotm
    rw [filter_nonzero_eq_replicate dir 1 (by decide) h01, hc]
    rfl

/-! ## The stored moment matrices are mutually inverse (C4) -/

theorem D1Q3Transform_inverse_mul_matrix :
    D1Q3Transform.inverse * D1Q3Transform.matrix = 1 := by
  ext i j
  fin_cases i <;> fin_cases j <;>
    norm_num [D1Q3Transform.inverse, D1Q3Transform.matrix, Matrix.mul_apply,
      Fin.sum_univ_succ, Matrix.one_apply, Fin.ext_iff]

set_option maxHeartbeats 2000000 in
theorem D2Q9Dellar_inverse_mul_matrix :
    D2Q9Dellar.inverse * D2Q9Dellar.matrix = 1 := by
  ext i j
  fin_cases i <;> fin_cases j <;>
    norm_num [D2Q9Dellar.inverse, D2Q9Dellar.matrix, Matrix.mul_apply,
      Fin.sum_univ_succ, Matrix.one_apply, Fin.ext_iff]

set_option maxHeartbeats 2000000 in
theorem D2Q9Lallemand_inverse_mul_matrix :
    D2Q9Lallemand.inverse * D2Q9Lallemand.matrix = 1 := by
  ext i j
  fin_cases i <;> fin_cases j <;>
    norm_num [D2Q9Lallemand.inverse, D2Q9Lallemand.matrix, Matrix.mul_apply,
      Fin.sum_univ_succ, Matrix.one_apply, Fin.ext_iff]

/-! ## The claims -/

/-- C1: for the fixed D2Q9 stencil and BGK collision choice, one LBM time
step (collision followed by streaming) computed by the generated native
kernel on a given initial distribution array equals the reference
(array-based) operator's output at every cell and every direction — the
equality over `ℚ` is exact, hence in particular within the floating
tolerance 1e-5. -/
theorem C1_generated_step_matches_reference (Nx Ny : ℕ) [NeZero Nx] [NeZero Ny]
    (tau : ℚ) (feq : (Fin 9 → ℚ) → Fin 9 → ℚ)
    (f : (Fin Nx × Fin Ny) × Fin 9 → ℚ) (yq : (Fin Nx × Fin Ny) × Fin 9) :
    genStream Nx Ny D2Q9e (bgkCollide tau feq f) yq
      = refStream Nx Ny D2Q9e (bgkCollide tau feq f) yq ∧
    |genStream Nx Ny D2Q9e (bgkCollide tau feq f) yq
      - refStream Nx Ny D2Q9e (bgkCollide tau feq f) yq| ≤ 1 / 100000 := by
  have he : ∀ q : Fin 9, (D2Q9e q).1.natAbs ≤ 1 ∧ (D2Q9e q).2.natAbs ≤ 1 := by decide
  have h := genStream_eq_refStream Nx Ny D2Q9e he (bgkCollide tau feq f) yq
  refine ⟨h, ?_⟩
  rw [h]
  simp

/-- C1 witness: the equivalence instantiated on a concrete 2×2 grid, unit
relaxation time, zero equilibrium and constant initial distribution. -/
theorem C1_witness :
    genStream 2 2 D2Q9e (bgkCollide 1 (fun _ _ => 0) (fun _ => 1)) ((0, 0), 0)
      = refStream 2 2 D2Q9e (bgkCollide 1 (fun _ _ => 0) (fun _ => 1)) ((0, 0), 0) :=
  (C1_generated_step_matches_reference 2 2 1 (fun _ _ => 0) (fun _ => 1) ((0, 0), 0)).1

/-- C2: the write-back emitted by standard streaming computes each
neighbour coordinate by adding the direction vector componentwise and
applying periodic wraparound per spatial axis independently (add the
axis's extent below zero, subtract it at or above the extent); on in-range
cells with direction components within one extent this is the remainder
modulo the axis extent, and in particular on a D2Q9 grid of extent
(Nx, Ny), direction (1,0) at cell (Nx-1, y) streams to (0, y) and
direction (-1,-1) at cell (0,0) streams to (Nx-1, Ny-1) — each axis
wrapping on its own extent. -/
theorem C2_streaming_periodic_wraparound :
    (∀ (d : ℕ) (dims idx e : Fin d → ℤ) (a : Fin d),
        streamTarget dims idx e a =
          (if idx a + e a < 0 then idx a + e a + dims a
           else if idx a + e a ≥ dims a then idx a + e a - dims a
           else idx a + e a)) ∧
    (∀ (d : ℕ) (dims idx e : Fin d → ℤ) (a : Fin d),
        -(dims a) ≤ idx a + e a → idx a + e a < 2 * dims a →
        streamTarget dims idx e a = (idx a + e a) % dims a) ∧
    (∀ Nx Ny y : ℤ, 1 ≤ Nx → 0 ≤ y → y < Ny →
        streamTarget ![Nx, Ny] ![Nx - 1, y] ![1, 0] = ![0, y]) ∧
    (∀ Nx Ny : ℤ, 1 ≤ Nx → 1 ≤ Ny →
        streamTarget ![Nx, Ny] ![0, 0] ![-1, -1] = ![Nx - 1, Ny - 1]) := by
  refine ⟨fun d dims idx e a => rfl, ?_, ?_, ?_⟩
  · intro d dims idx e a h1 h2
    exact wrapCoord_eq_emod _ _ h1 h2
  · intro Nx Ny y h1 h2 h3
    funext a
    fin_cases a <;>
      simp only [streamTarget, Fin.mk_zero, Fin.mk_one, Matrix.cons_val_zero,
        Matrix.cons_val_one, Matrix.head_cons] <;>
      unfold wrapCoord <;> split_ifs <;> omega
  · intro Nx Ny h1 h2
    funext a
    fin_cases a <;>
      simp only [streamTarget, Fin.mk_zero, Fin.mk_one, Matrix.cons_val_zero,
        Matrix.cons_val_one, Matrix.head_cons] <;>
      unfold wrapCoord <;> split_ifs <;> omega

/-- C2 witness: the two named instances on the concrete grid (4, 5): the
direction (1,0) at cell (3,2) wraps to (0,2), and (-1,-1) at (0,0) wraps
to (3,4), each axis on its own extent. -/
theorem C2_witness :
    streamTarget ![4, 5] ![(4:ℤ) - 1, 2] ![1, 0] = ![0, 2] ∧
    streamTarget ![4, 5] ![0, 0] ![-1, -1] = ![(4:ℤ) - 1, (5:ℤ) - 1] :=
  ⟨C2_streaming_periodic_wraparound.2.2.1 4 5 2 (by norm_num) (by norm_num)
      (by norm_num),
    C2_streaming_periodic_wraparound.2.2.2 4 5 (by norm_num) (by norm_num)⟩

/-- C3: when `support_no_streaming_mask` is enabled and the no-stream mask
is true at a cell, the standard-streaming write-back executed for that
cell sets `f_next` at the cell itself to `f` at the cell for every
direction (the masked branch writes to the cell's own coordinate, the
neighbour-offset computation is skipped) and stores nowhere else. -/
theorem C3_mask_freezes_cell {d Q : ℕ} (dims : Fin d → ℤ)
    (e : Fin Q → Fin d → ℤ) (noStreamMask : (Fin d → ℤ) → Bool)
    (f fnext : (Fin d → ℤ) × Fin Q → ℚ) (index : Fin d → ℤ)
    (hmask : noStreamMask index = true) (c : Fin d → ℤ) (q : Fin Q) :
    cellWriteBack dims e noStreamMask f index fnext (c, q)
      = if c = index then f (index, q) else fnext (c, q) := by
  unfold cellWriteBack
  have hsimp :
      (fun (buf : (Fin d → ℤ) × Fin Q → ℚ) (i : Fin Q) =>
        Function.update buf
          (if noStreamMask index then index else streamTarget dims index (e i), i)
          (f (index, i)))
      = fun buf i => Function.update buf (index, i) (f (index, i)) := by
    funext buf i
    rw [if_pos hmask]
  rw [hsimp]
  by_cases hc : c = index
  · subst hc
    rw [if_pos rfl]
    exact foldl_update_of_mem (List.finRange Q) (fun i => (c, i))
      (fun i => f (c, i)) fnext
      (List.Nodup.map (fun i i' h => congrArg Prod.snd h)
        (List.nodup_finRange Q)) q (List.mem_finRange q)
  · rw [if_neg hc]
    exact foldl_update_of_forall_ne (List.finRange Q) (fun i => (index, i))
      (fun i => f (index, i)) fnext (c, q)
      (fun j _ hj => hc (by injection hj with h1 h2; exact h1.symm))

/-- C3 witness: a one-dimensional grid of extent 3, one direction with
offset 1, the mask set everywhere: the write-back for cell 0 stores the
cell's own population and leaves the rest of `f_next` untouched. -/
theorem C3_witness :
    @cellWriteBack 1 1 ℚ ![3] (fun _ => ![1]) (fun _ => true)
        (fun _ => 5) ![0] (fun _ => 7) (![0], 0) = 5 := by
  have h := @C3_mask_freezes_cell 1 1 ![3] (fun _ => ![1])
    (fun _ => true) (fun _ => 5) (fun _ => 7) ![0] rfl ![0] 0
  simpa using h

/-- C4: for every supported stencil/basis pair (D1Q3Transform on D1Q3,
D2Q9Dellar and D2Q9Lallemand on D2Q9), applying `transform` and then
`inverse_transform` recovers the distribution exactly at every entry
(hence within 1e-6), and the stored `matrix` and `inverse` arrays are
mutually inverse linear maps. -/
theorem C4_transform_roundtrip :
    (∀ f, D1Q3Transform.inverse_transform (D1Q3Transform.transform f) = f) ∧
    (∀ f, D2Q9Dellar.inverse_transform (D2Q9Dellar.transform f) = f) ∧
    (∀ f, D2Q9Lallemand.inverse_transform (D2Q9Lallemand.transform f) = f) ∧
    (D1Q3Transform.inverse * D1Q3Transform.matrix = 1 ∧
      D1Q3Transform.matrix * D1Q3Transform.inverse = 1) ∧
    (D2Q9Dellar.inverse * D2Q9Dellar.matrix = 1 ∧
      D2Q9Dellar.matrix * D2Q9Dellar.inverse = 1) ∧
    (D2Q9Lallemand.inverse * D2Q9Lallemand.matrix = 1 ∧
      D2Q9Lallemand.matrix * D2Q9Lallemand.inverse = 1) := by
  refine ⟨?_, ?_, ?_,
    ⟨D1Q3Transform_inverse_mul_matrix,
      Matrix.mul_eq_one_comm.mp D1Q3Transform_inverse_mul_matrix⟩,
    ⟨D2Q9Dellar_inverse_mul_matrix,
      Matrix.mul_eq_one_comm.mp D2Q9Dellar_inverse_mul_matrix⟩,
    ⟨D2Q9Lallemand_inverse_mul_matrix,
      Matrix.mul_eq_one_comm.mp D2Q9Lallemand_inverse_mul_matrix⟩⟩ <;>
    intro f
  · rw [D1Q3Transform.inverse_transform, D1Q3Transform.transform,
      Matrix.mulVec_mulVec, D1Q3Transform_inverse_mul_matrix, Matrix.one_mulVec]
  · rw [D2Q9Dellar.inverse_transform, D2Q9Dellar.transform,
      Matrix.mulVec_mulVec, D2Q9Dellar_inverse_mul_matrix, Matrix.one_mulVec]
  · rw [D2Q9Lallemand.inverse_transform, D2Q9Lallemand.transform,
      Matrix.mulVec_mulVec, D2Q9Lallemand_inverse_mul_matrix, Matrix.one_mulVec]

/-- C5: constructing an `AntiBounceBackOutlet` with a direction list that
does not have exactly one nonzero entry equal to +1 or -1 fails the
construction-time assertion (in particular `[1, 1]` fails, with an error
message naming the offending value); directions `[1, 0]` and `[-1, 0]`
pass, and the two constructions select disjoint velocity sets, namely
exactly the stencil directions whose projection onto the direction
equals +1. -/
theorem C5_outlet_direction_validation :
    (∀ dir : List ℤ, validDirection dir = true → exactlyOneNonzeroUnit dir) ∧
    validDirection [1, 1] = false ∧
    wrongDirectionMessage [1, 1]
      = "Wrong direction. Expected list of length 1, 2 or 3 with all entrys 0 except one 1 or -1, but got <class \x27list\x27> of size 2 and entrys [1, 1]." ∧
    validDirection [1, 0] = true ∧
    validDirection [-1, 0] = true ∧
    selectedVelocities (1, 0) = [1, 5, 8] ∧
    selectedVelocities (-1, 0) = [3, 6, 7] ∧
    (∀ i, i ∈ selectedVelocities (1, 0) → i ∉ selectedVelocities (-1, 0)) ∧
    (∀ (dir : ℤ × ℤ) (i : Fin 9),
        i ∈ selectedVelocities dir ↔
          (D2Q9e i).1 * dir.1 + (D2Q9e i).2 * dir.2 = 1) := by
  refine ⟨validDirection_exactlyOne, by decide, by rfl, by decide, by decide,
    by decide, by decide, by decide, ?_⟩
  intro dir i
  simp [selectedVelocities, List.mem_filter, List.mem_finRange]

/-- C5 witness: the validated direction `[1, 0]` has exactly one nonzero
entry, equal to +1. -/
theorem C5_witness : exactlyOneNonzeroUnit [1, 0] :=
  C5_outlet_direction_validation.1 [1, 0] (by decide)

/-- C6: within one generation run each FragmentKey is emitted into the
shared buffers at most once: every `generate_*` method checks the registry
(or `launcher_hooked`/`kernel_hooked`) before emitting, so calling any of
them a second time appends nothing — the second call returns the state
unchanged. -/
theorem C6_fragments_emitted_once :
    (∀ (sm : Bool) (d : ℕ) (coord mc : String) (s : GenState),
        NativeStandardStreaming.generate_read_write sm d coord mc
            (NativeStandardStreaming.generate_read_write sm d coord mc s)
          = NativeStandardStreaming.generate_read_write sm d coord mc s) ∧
    (∀ (d : ℕ) (coord : String) (s : GenState),
        NativeNoStreaming.generate_read_write d coord
            (NativeNoStreaming.generate_read_write d coord s)
          = NativeNoStreaming.generate_read_write d coord s) ∧
    (∀ s, generate_f_next (generate_f_next s) = generate_f_next s) ∧
    (∀ s, generate_no_stream_mask (generate_no_stream_mask s)
        = generate_no_stream_mask s) ∧
    (∀ key frag s, generatePrimitive key frag (generatePrimitive key frag s)
        = generatePrimitive key frag s) := by
  refine ⟨?_, ?_, ?_, ?_, ?_⟩
  · intro sm d coord mc s
    exact std_grw_of_registered sm d coord mc _
      ((registeredKey_iff _ _).mpr (mem_rw_std_grw sm d coord mc s))
  · intro d coord s
    exact no_grw_of_registered d coord _
      ((registeredKey_iff _ _).mpr (mem_rw_no_grw d coord s))
  · intro s
    exact generate_f_next_of_registered _
      ((registeredKey_iff _ _).mpr (mem_f_next_generate_f_next s))
  · intro s
    exact generate_no_stream_mask_of_hooked _
      (hooked_generate_no_stream_mask s).1 (hooked_generate_no_stream_mask s).2
  · intro key frag s
    exact generatePrimitive_of_registered key frag _
      ((registeredKey_iff _ _).mpr (mem_key_generatePrimitive key frag s))

/-- C7: generation is deterministic — for a fixed configuration (a fixed
list of component contributions, in particular one ending in the standard
streaming contribution embedded from src/), `generate()` resets its state,
so its buffers do not depend on the generator's prior state and two
successive `generate()` calls produce identical text in every buffer. -/
theorem C7_generation_deterministic :
    ∀ (components : List (GenState → GenState)) (s₁ s₂ : GenState),
      Generator.generate components s₁ = Generator.generate components s₂ ∧
      ∀ (sm : Bool) (d : ℕ) (coord mc : String),
        Generator.generate
            (components ++ [NativeStandardStreaming.generate_read_write sm d coord mc])
            (Generator.generate
              (components ++ [NativeStandardStreaming.generate_read_write sm d coord mc])
              s₁)
          = Generator.generate
              (components ++ [NativeStandardStreaming.generate_read_write sm d coord mc])
              s₁ :=
  fun _ _ _ => ⟨rfl, fun _ _ _ _ => rfl⟩

/-- C8: when standard streaming contributes the `f_next` fragment, the
host-side wrapper's post-launch block receives the statement that swaps
the `f` and `f_next` references, appended exactly once per generation run:
after one `generate_read_write` from the fresh state the post-launch
buffer contains the swap statement exactly once, and neither a repeated
`generate_read_write` nor a repeated `generate_f_next` appends it again. -/
theorem C8_swap_appended_once :
    ∀ (sm : Bool) (d : ℕ) (coord mc : String),
      ((NativeStandardStreaming.generate_read_write sm d coord mc
          GenState.empty).wrapperAfter.count swapStatement = 1) ∧
      ((NativeStandardStreaming.generate_read_write sm d coord mc
          (NativeStandardStreaming.generate_read_write sm d coord mc
            GenState.empty)).wrapperAfter.count swapStatement = 1) ∧
      ((generate_f_next (NativeStandardStreaming.generate_read_write sm d coord mc
          GenState.empty)).wrapperAfter.count swapStatement = 1) := by
  intro sm d coord mc
  have hempty_rw : GenState.empty.registeredKey "read_write()" = false := rfl
  have hempty_fn : GenState.empty.registeredKey "f_next" = false := rfl
  have h1 : (NativeStandardStreaming.generate_read_write sm d coord mc
      GenState.empty).wrapperAfter = [swapStatement] := by
    rw [wa_std_grw, hempty_rw, hempty_fn]
    rfl
  have hreg : (NativeStandardStreaming.generate_read_write sm d coord mc
      GenState.empty).registeredKey "read_write()" = true :=
    (registeredKey_iff _ _).mpr (mem_rw_std_grw sm d coord mc GenState.empty)
  have hfnmem : "f_next" ∈ (NativeStandardStreaming.generate_read_write sm d coord mc
      GenState.empty).registeredKeys := by
    unfold NativeStandardStreaming.generate_read_write
    rw [if_neg (by simp [hempty_rw])]
    simp only [rk_appendIndexBuffer, rk_appendWriteBuffer]
    apply mem_rk_generatePrimitive
    apply mem_rk_generatePrimitive
    apply mem_rk_generatePrimitive
    apply mem_rk_generatePrimitive
    apply mem_rk_generatePrimitive
    exact mem_f_next_generate_f_next _
  refine ⟨by rw [h1]; decide, ?_, ?_⟩
  · rw [wa_std_grw, hreg, if_pos rfl, h1]
    decide
  · rw [wa_generate_f_next, if_pos ((registeredKey_iff _ _).mpr hfnmem), h1]
    decide

/-- C9: `BounceBackBoundary.__call__` and `EquilibriumBoundaryPU.__call__`
return an array that is unchanged at every lattice point where the mask is
false; only masked cells are modified — bounce-back replaces them by the
opposite-direction populations, the equilibrium boundary by the
precomputed equilibrium. -/
theorem C9_boundaries_touch_only_masked_cells {Q : ℕ} {C : Type}
    (opposite : Fin Q → Fin Q) (mask : C → Bool) (f : Fin Q → C → ℚ)
    (feq : Fin Q → ℚ) (q : Fin Q) (c : C) :
    (mask c = false →
      bounceBackBoundary opposite mask f q c = f q c ∧
      equilibriumBoundaryPU mask feq f q c = f q c) ∧
    (mask c = true →
      bounceBackBoundary opposite mask f q c = f (opposite q) c ∧
      equilibriumBoundaryPU mask feq f q c = feq q) := by
  constructor <;> intro h <;>
    simp [bounceBackBoundary, equilibriumBoundaryPU, h]

/-- C9 witness: on a two-cell grid with the mask set only at cell 0, both
boundaries leave the distribution at cell 1 unchanged. -/
theorem C9_witness :
    bounceBackBoundary (fun q : Fin 2 => q) (fun c : Fin 2 => decide (c = 0))
        (fun _ _ => (3 : ℚ)) 0 1 = 3 ∧
    equilibriumBoundaryPU (fun c : Fin 2 => decide (c = 0))
        (fun _ : Fin 2 => (9 : ℚ)) (fun _ _ => (3 : ℚ)) 0 1 = 3 :=
  (C9_boundaries_touch_only_masked_cells (fun q : Fin 2 => q)
    (fun c : Fin 2 => decide (c = 0)) (fun _ _ => 3) (fun _ => 9) 0 1).1 (by decide)

/-- C10: provided the moment transformation's `transform` and
`inverse_transform` are mutually inverse and the momentum moment indices
are distinct, `BGKInitialization.__call__` returns a distribution whose
momentum moments equal `rho` times the velocity `u` fixed at construction,
for every input flow state — the initialization collision keeps the
velocity constant while relaxing the other moments. -/
theorem C10_initialization_keeps_momentum {Q dd : ℕ} [NeZero Q]
    (T Tinv : (Fin Q → ℚ) → (Fin Q → ℚ)) (tau : ℚ)
    (momentumIndices : Fin dd → Fin Q) (u : Fin dd → ℚ) (rho : ℚ)
    (feq f : Fin Q → ℚ)
    (hTinv : ∀ v, T (Tinv v) = v)
    (hinj : Function.Injective momentumIndices) (k : Fin dd) :
    T (bgkInitialization T Tinv tau momentumIndices u rho feq f)
        (momentumIndices k)
      = rho * u k := by
  unfold bgkInitialization
  dsimp only []
  rw [hTinv]
  exact foldl_update_of_mem (List.finRange dd) momentumIndices
    (fun k => rho * u k) _
    (List.Nodup.map hinj (List.nodup_finRange dd)) k (List.mem_finRange k)

/-- C10 witness: the identity transform (the signature of the base
`Transform` class), one momentum index, `rho = 2` and `u = 3`: the
momentum moment of the returned distribution is `2 * 3`. -/
theorem C10_witness :
    bgkInitialization (fun v : Fin 2 → ℚ => v) (fun v => v) 1
        (fun _ : Fin 1 => (1 : Fin 2)) (fun _ => 3) 2 (fun _ => 0)
        (fun _ => 0) 1
      = 2 * 3 :=
  C10_initialization_keeps_momentum (fun v => v) (fun v => v) 1
    (fun _ => 1) (fun _ => 3) 2 (fun _ => 0) (fun _ => 0)
    (fun _ => rfl) (fun a b _ => Subsingleton.elim a b) 0
